import Mathlib

/-!
Shallow embedding of the SSE (server-sent events) dispatch subsystem:
the `SSEManager` class (connection registry, targeted/broadcast send,
heartbeat and stale sweep) and its wire-format encoder
`formatSSEMessage`, together with the data model from the repository's
type declarations (`SSEClient`, `SSEEvent`, `SSEManagerConfig`,
`ClientFilter`).

Modelling conventions:
- JS `Map<string, SSEClient>` becomes an insertion-ordered association
  list `List SSEClient` keyed by `id` (Map.get = first find, Map.set =
  replace-in-place or append, Map.delete = erase the keyed entry).
- Timestamps (`Date.now()`) are `Nat` parameters threaded explicitly.
- The stream controller is external I/O: whether `controller.enqueue`
  succeeds for a given client at a given moment is an oracle
  `ok : String → Bool`; `controller.close()` is recorded in a
  `closedSinks` log (close tolerates an already-closed controller, so
  the log may repeat ids, exactly as repeated close calls would).
- `JSON.stringify` is a runtime-provided serializer for non-string
  payloads; a non-string payload is carried together with its
  serialized text (the encoder only ever uses the serialized text).
- JS truthiness is modelled exactly: an absent or empty string is
  falsy, an absent or zero number is falsy, and any array or object
  (even empty) is truthy.
-/

namespace SSE

/-- Values stored in a connection's `metadata` record
(`Record<string, unknown>`); scalar JSON-like values suffice for the
fields the manager compares with `===`. -/
inductive JsVal where
  | str (s : String)
  | num (n : Int)
  | boolean (b : Bool)
  | null
deriving DecidableEq, Repr

/-- The `data` field of `SSEEvent` (`data: unknown`): either a string
(used verbatim) or a non-string value carried with the text
`JSON.stringify` produces for it. -/
inductive SSEData where
  | str (s : String)
  | json (serialized : String)
deriving DecidableEq, Repr

/-- `SSEEvent` from the types module: optional `event` name, payload
`data`, optional `id`, optional `retry` (milliseconds). -/
structure SSEEvent where
  event : Option String := none
  data : SSEData
  id : Option String := none
  retry : Option Nat := none
deriving DecidableEq, Repr

/-- `SSEClient` from the types module, minus the two runtime handles
(`response`, `controller`), which are modelled externally (see the
file header). -/
structure SSEClient where
  id : String
  userId : Option String := none
  sessionId : Option String := none
  lastPing : Nat
  connectedAt : Nat
  metadata : Option (List (String × JsVal)) := none
deriving DecidableEq, Repr

/-- `ClientFilter` from the types module. -/
structure ClientFilter where
  userId : Option String := none
  sessionId : Option String := none
  clientIds : Option (List String) := none
  metadata : Option (List (String × JsVal)) := none
deriving DecidableEq, Repr

/-- `SSEManagerConfig`: all fields optional. -/
structure SSEManagerConfig where
  pingInterval : Option Nat := none
  clientTimeout : Option Nat := none
  maxClients : Option Nat := none
  enableLogging : Option Bool := none
deriving DecidableEq, Repr

/-- `Required<SSEManagerConfig>`: the resolved configuration held by
the manager. -/
structure ResolvedConfig where
  pingInterval : Nat
  clientTimeout : Nat
  maxClients : Nat
  enableLogging : Bool
deriving DecidableEq, Repr

/-- The constructor's defaulting (`config.pingInterval ?? 30000`, …). -/
def resolveConfig (config : SSEManagerConfig) : ResolvedConfig where
  pingInterval := config.pingInterval.getD 30000
  clientTimeout := config.clientTimeout.getD 60000
  maxClients := config.maxClients.getD 1000
  enableLogging := config.enableLogging.getD true

/-- JS truthiness of an optional string: `undefined` and `""` are
falsy. -/
def truthyStr : Option String → Bool
  | none => false
  | some s => s != ""

/-- JS truthiness of an optional number: `undefined` and `0` are
falsy. -/
def truthyNat : Option Nat → Bool
  | none => false
  | some n => n != 0

/-- The text the encoder serializes the payload to:
`typeof event.data === "string" ? event.data : JSON.stringify(event.data)`. -/
def serializeData : SSEData → String
  | .str s => s
  | .json t => t

/-- Char-level split on a fixed separator character, the semantics of
JS `string.split("\n")` (one-character separator): always returns at
least one fragment, `""` splits to `[""]`, fragments never contain the
separator. -/
def splitLines : List Char → List (List Char)
  | [] => [[]]
  | c :: cs =>
    match splitLines cs with
    | [] => [[]]
    | l :: ls => if c = '\n' then [] :: l :: ls else (c :: l) :: ls

/-- `data.split("\n")` from the encoder, lifted to `String`. -/
def splitOnNl (s : String) : List String :=
  (splitLines s.data).map String.mk

/-- `formatSSEMessage`: builds the wire text by appending, in source
order, the optional `id:`/`event:`/`retry:` header lines (each guarded
by JS truthiness of the field), one `data:` line per newline-separated
fragment of the serialized payload, and the terminating blank line. -/
def formatSSEMessage (event : SSEEvent) : String :=
  let message := ""
  let message :=
    if truthyStr event.id then message ++ "id: " ++ event.id.getD "" ++ "\n"
    else message
  let message :=
    if truthyStr event.event then
      message ++ "event: " ++ event.event.getD "" ++ "\n"
    else message
  let message :=
    if truthyNat event.retry then
      message ++ "retry: " ++ toString (event.retry.getD 0) ++ "\n"
    else message
  let data := serializeData event.data
  let dataLines := splitOnNl data
  let message :=
    message ++ String.join (dataLines.map (fun line => "data: " ++ line ++ "\n"))
  message ++ "\n"

/-- The manager's mutable fields: the registry (`clients` Map, as an
insertion-ordered keyed list), the log of closed sink controllers, and
the two statistics counters. -/
structure ManagerState where
  clients : List SSEClient := []
  closedSinks : List String := []
  totalEventsSent : Nat := 0
  lastEventTime : Option Nat := none
deriving DecidableEq, Repr

/-- `this.clients.get(clientId)`. -/
def getClient (st : ManagerState) (clientId : String) : Option SSEClient :=
  st.clients.find? (fun c => c.id == clientId)

/-- `this.clients.set(clientId, client)`: replace the existing keyed
entry in place, or append a new one (JS Map insertion order). -/
def setClient (cs : List SSEClient) (client : SSEClient) : List SSEClient :=
  if cs.any (fun c => c.id == client.id) then
    cs.map (fun c => if c.id == client.id then client else c)
  else cs ++ [client]

/-- `disconnectClient(clientId)`: if the client is absent return
`false`; otherwise close its controller (tolerating an already-closed
one — recorded in the `closedSinks` log), delete it from the registry
(`this.clients.delete`), and return `true`. -/
def disconnectClient (clientId : String) (st : ManagerState) :
    ManagerState × Bool :=
  match getClient st clientId with
  | none => (st, false)
  | some _ =>
    ({ st with
        clients := st.clients.eraseP (fun c => c.id == clientId)
        closedSinks := st.closedSinks ++ [clientId] }, true)

/-- `sendToClient(clientId, event)`: absent client → `false`, state
untouched; `controller.enqueue` of the formatted message succeeds
(oracle `ok`) → bump `totalEventsSent`, set `lastEventTime`, return
`true`; enqueue throws → `disconnectClient` and return `false`. -/
def sendToClient (ok : String → Bool) (clientId : String) (_event : SSEEvent)
    (now : Nat) (st : ManagerState) : ManagerState × Bool :=
  match getClient st clientId with
  | none => (st, false)
  | some _ =>
    if ok clientId then
      ({ st with
          totalEventsSent := st.totalEventsSent + 1
          lastEventTime := some now }, true)
    else
      ((disconnectClient clientId st).1, false)

/-- The filter test of `getClientsByFilter`, one `continue` guard per
criterion, with JS truthiness: a present-but-empty `userId`/`sessionId`
string is falsy (criterion skipped), while a present `clientIds` array
or `metadata` object is always truthy, even when empty. -/
def matchesFilter (filter : ClientFilter) (client : SSEClient) : Bool :=
  if filter.clientIds.isSome
      && !((filter.clientIds.getD []).contains client.id) then false
  else if truthyStr filter.userId && !(client.userId == filter.userId) then
    false
  else if truthyStr filter.sessionId
      && !(client.sessionId == filter.sessionId) then false
  else if filter.metadata.isSome
      && !((filter.metadata.getD []).all
            (fun kv => client.metadata.bind (List.lookup kv.1) == some kv.2))
  then false
  else true

/-- `getClientsByFilter(filter)`: the registry entries passing every
guard, in registry order. -/
def getClientsByFilter (filter : ClientFilter) (cs : List SSEClient) :
    List SSEClient :=
  cs.filter (matchesFilter filter)

/-- The `for` loop of `sendToClients` over the matched ids:
`sendToClient` each, counting successes. -/
def sendLoop (ok : String → Bool) (event : SSEEvent) (now : Nat) :
    List String → ManagerState → ManagerState × Nat
  | [], st => (st, 0)
  | clientId :: rest, st =>
    let r := sendToClient ok clientId event now st
    let s := sendLoop ok event now rest r.1
    (s.1, s.2 + (if r.2 then 1 else 0))

/-- `sendToClients(filter, event)`: snapshot the matching clients,
send to each, return the success count. -/
def sendToClients (ok : String → Bool) (filter : ClientFilter)
    (event : SSEEvent) (now : Nat) (st : ManagerState) : ManagerState × Nat :=
  sendLoop ok event now ((getClientsByFilter filter st.clients).map (·.id)) st

/-- `broadcast(event)`: `sendToClients({}, event)`. -/
def broadcast (ok : String → Bool) (event : SSEEvent) (now : Nat)
    (st : ManagerState) : ManagerState × Nat :=
  sendToClients ok {} event now st

/-- `sendToUser(userId, event)`: `sendToClients({ userId }, event)`. -/
def sendToUser (ok : String → Bool) (userId : String) (event : SSEEvent)
    (now : Nat) (st : ManagerState) : ManagerState × Nat :=
  sendToClients ok { userId := some userId } event now st

/-- The initial `connected` event sent from the stream's `start`
callback, with its `JSON.stringify`-serialized payload
`{ clientId, connectedAt }`. -/
def connectedEvent (clientId : String) (connectedAt : Nat) : SSEEvent where
  event := some "connected"
  data := .json ("\x7b\"clientId\":\"" ++ clientId ++ "\",\"connectedAt\":"
    ++ toString connectedAt ++ "\x7d")

/-- Connection options accepted by `createConnection`. -/
structure ConnectOptions where
  userId : Option String := none
  sessionId : Option String := none
  metadata : Option (List (String × JsVal)) := none
deriving DecidableEq, Repr

/-- `createConnection(options)`: throw the capacity error when the
registry already holds `maxClients` connections; otherwise register a
fresh client (id from `generateClientId`, modelled as the `clientId`
parameter; `Date.now()` as `now`) and synchronously send it the
initial `connected` event — a freshly created stream controller
accepts that enqueue, hence the constantly-true oracle. -/
def createConnection (cfg : ResolvedConfig) (clientId : String) (now : Nat)
    (options : ConnectOptions) (st : ManagerState) :
    Except String ManagerState :=
  if st.clients.length ≥ cfg.maxClients then
    .error "Maximum number of SSE clients reached"
  else
    let client : SSEClient :=
      { id := clientId
        userId := options.userId
        sessionId := options.sessionId
        lastPing := now
        connectedAt := now
        metadata := options.metadata }
    let st1 := { st with clients := setClient st.clients client }
    .ok (sendToClient (fun _ => true) clientId (connectedEvent clientId now)
          now st1).1

/-- The manager state as observed after a `createConnection` call:
the new state on success, the unchanged state when the call threw
(the capacity check precedes every mutation). -/
def createConnectionState (cfg : ResolvedConfig) (clientId : String)
    (now : Nat) (options : ConnectOptions) (st : ManagerState) :
    ManagerState :=
  match createConnection cfg clientId now options st with
  | .ok st2 => st2
  | .error _ => st

/-- The heartbeat `ping` event with its serialized
`{ timestamp: now }` payload. -/
def pingEvent (now : Nat) : SSEEvent where
  event := some "ping"
  data := .json ("\x7b\"timestamp\":" ++ toString now ++ "\x7d")

/-- `client.lastPing = now` on the registry entry keyed `clientId`. -/
def setLastPing (cs : List SSEClient) (clientId : String) (now : Nat) :
    List SSEClient :=
  cs.map (fun c => if c.id == clientId then { c with lastPing := now } else c)

/-- The `for` loop of `sendHeartbeat`: ping each client, stamping
`lastPing = now` on the ones whose send succeeded. -/
def heartbeatLoop (ok : String → Bool) (now : Nat) :
    List String → ManagerState → ManagerState
  | [], st => st
  | clientId :: rest, st =>
    let r := sendToClient ok clientId (pingEvent now) now st
    let st2 :=
      if r.2 then { r.1 with clients := setLastPing r.1.clients clientId now }
      else r.1
    heartbeatLoop ok now rest st2

/-- `sendHeartbeat()`: ping every registered client. -/
def sendHeartbeat (ok : String → Bool) (now : Nat) (st : ManagerState) :
    ManagerState :=
  heartbeatLoop ok now (st.clients.map (·.id)) st

/-- `cleanupStaleClients()`: collect the ids whose `lastPing` is older
than `clientTimeout`, then disconnect each. -/
def cleanupStaleClients (now clientTimeout : Nat) (st : ManagerState) :
    ManagerState :=
  let stale :=
    (st.clients.filter (fun c => now - c.lastPing > clientTimeout)).map (·.id)
  stale.foldl (fun s clientId => (disconnectClient clientId s).1) st

/-- One tick of the background timer started by `startPingInterval`:
`sendHeartbeat()` then `cleanupStaleClients()`. -/
def pingTick (ok : String → Bool) (now : Nat) (cfg : ResolvedConfig)
    (st : ManagerState) : ManagerState :=
  cleanupStaleClients now cfg.clientTimeout (sendHeartbeat ok now st)

/-- The characters contributed after the first fragment when the
fragments are joined with a newline separator. -/
def tailGlue : List String → List Char
  | [] => []
  | a :: as => ('\n' :: a.data) ++ tailGlue as

/-- The characters of the fragments joined with a newline separator. -/
def glue : List String → List Char
  | [] => []
  | a :: as => a.data ++ tailGlue as

/-! ### Spec-side (claim-shaped) definitions, for comparison with the
code-derived definitions above -/

/-- The filter characterization exactly as the claim states it: every
criterion *present* in the filter (field set) must hold — `userId` and
`sessionId` exact equality, membership for `clientIds`, per-key
equality for `metadata`. -/
def claimMatches (f : ClientFilter) (c : SSEClient) : Bool :=
  (!(f.userId.isSome) || c.userId == f.userId)
    && (!(f.sessionId.isSome) || c.sessionId == f.sessionId)
    && (!(f.clientIds.isSome) || (f.clientIds.getD []).contains c.id)
    && (!(f.metadata.isSome)
        || (f.metadata.getD []).all
            (fun kv => c.metadata.bind (List.lookup kv.1) == some kv.2))

/-- The filter characterization amended for JS truthiness: a
`userId`/`sessionId` criterion applies only when the string is present
*and non-empty*; `clientIds` and `metadata` apply whenever present
(arrays and objects are always truthy). -/
def amendedMatches (f : ClientFilter) (c : SSEClient) : Bool :=
  (!(truthyStr f.userId) || c.userId == f.userId)
    && (!(truthyStr f.sessionId) || c.sessionId == f.sessionId)
    && (!(f.clientIds.isSome) || (f.clientIds.getD []).contains c.id)
    && (!(f.metadata.isSome)
        || (f.metadata.getD []).all
            (fun kv => c.metadata.bind (List.lookup kv.1) == some kv.2))

/-- The header block exactly as the claim states it: an `id:` line
whenever `id` is present, then an `event:` line whenever the name is
present, then a `retry:` line whenever `retry` is present. -/
def claimHeader (ev : SSEEvent) : String :=
  (match ev.id with
    | some i => "id: " ++ i ++ "\n"
    | none => "")
  ++ (match ev.event with
    | some n => "event: " ++ n ++ "\n"
    | none => "")
  ++ (match ev.retry with
    | some r => "retry: " ++ toString r ++ "\n"
    | none => "")

/-- The whole message as the claim describes it: the header lines,
then one `data:` line per fragment, then the blank line. -/
def claimFormat (ev : SSEEvent) : String :=
  claimHeader ev
    ++ String.join ((splitOnNl (serializeData ev.data)).map
        (fun line => "data: " ++ line ++ "\n"))
    ++ "\n"

/-- The header block amended for JS truthiness: a header line is
emitted when its field is present *and truthy* (non-empty string,
non-zero retry). -/
def amendedHeader (ev : SSEEvent) : String :=
  (if truthyStr ev.id then "id: " ++ ev.id.getD "" ++ "\n" else "")
  ++ (if truthyStr ev.event then "event: " ++ ev.event.getD "" ++ "\n" else "")
  ++ (if truthyNat ev.retry then
        "retry: " ++ toString (ev.retry.getD 0) ++ "\n"
      else "")

/-! ### Helper lemmas -/

theorem matchesFilter_empty (c : SSEClient) : matchesFilter {} c = true := rfl

theorem getClientsByFilter_empty (cs : List SSEClient) :
    getClientsByFilter {} cs = cs := by
  simp [getClientsByFilter, matchesFilter_empty]

theorem filter_length_add_not (l : List SSEClient) (p : SSEClient → Bool) :
    (l.filter p).length + (l.filter (fun a => !(p a))).length = l.length := by
  induction l with
  | nil => rfl
  | cons a l ih =>
    by_cases h : p a = true <;> simp [List.filter_cons, h] <;> omega

theorem eraseP_keyed (l : List SSEClient) (i : String)
    (hw : (l.map (·.id)).Nodup) :
    l.eraseP (fun c => c.id == i) = l.filter (fun c => !(c.id == i)) := by
  induction l with
  | nil => rfl
  | cons a l ih =>
    simp only [List.map_cons, List.nodup_cons] at hw
    by_cases h : a.id = i
    · subst h
      simp only [List.eraseP_cons, beq_self_eq_true, cond_true,
        List.filter_cons, Bool.not_true, bne_self_eq_false]
      refine (List.filter_eq_self.mpr fun c hc => ?_).symm
      have : c.id ≠ a.id := fun he => hw.1 (he ▸ List.mem_map_of_mem (·.id) hc)
      simpa using this
    · have hb : (a.id == i) = false := beq_eq_false_iff_ne.mpr h
      simp [List.eraseP_cons, hb, List.filter_cons, ih hw.2]

theorem disconnect_clients_eq (i : String) (st : ManagerState)
    (hw : (st.clients.map (·.id)).Nodup) :
    ((disconnectClient i st).1).clients
      = st.clients.filter (fun c => !(c.id == i)) := by
  unfold disconnectClient
  cases h : getClient st i with
  | none =>
    refine (List.filter_eq_self.mpr fun c hc => ?_).symm
    have := List.find?_eq_none.mp h c hc
    simpa using this
  | some c => simpa using eraseP_keyed st.clients i hw

theorem ids_nodup_filter (l : List SSEClient) (p : SSEClient → Bool)
    (hw : (l.map (·.id)).Nodup) : ((l.filter p).map (·.id)).Nodup :=
  ((List.filter_sublist l).map (·.id)).nodup hw

theorem contains_keys_filter (l : List SSEClient) (p : SSEClient → Bool)
    (c : SSEClient) (hw : (l.map (·.id)).Nodup) (hc : c ∈ l) :
    ((l.filter p).map (·.id)).contains c.id = p c := by
  by_cases h : p c = true
  · have : c.id ∈ (l.filter p).map (·.id) :=
      List.mem_map_of_mem (·.id) (List.mem_filter.mpr ⟨hc, h⟩)
    simpa [h] using this
  · have hn : c.id ∉ (l.filter p).map (·.id) := by
      intro hmem
      rcases List.mem_map.mp hmem with ⟨d, hd, hdi⟩
      rcases List.mem_filter.mp hd with ⟨hdl, hdp⟩
      have : d = c := List.inj_on_of_nodup_map hw hdl hc hdi
      exact h (this ▸ hdp)
    simp only [Bool.not_eq_true] at h
    simpa [h] using hn

theorem contains_keys_all (l : List SSEClient) (c : SSEClient)
    (hc : c ∈ l) : (l.map (·.id)).contains c.id = true := by
  simpa using List.mem_map_of_mem (·.id) hc

theorem disconnectClient_absent (clientId : String) (st : ManagerState)
    (h : getClient st clientId = none) :
    disconnectClient clientId st = (st, false) := by
  unfold disconnectClient
  rw [h]

theorem sendLoop_spec (ok : String → Bool) (ev : SSEEvent) (now : Nat)
    (L : List String) :
    ∀ st : ManagerState, (st.clients.map (·.id)).Nodup → L.Nodup →
      (∀ i ∈ L, ∃ c ∈ st.clients, c.id = i) →
      (sendLoop ok ev now L st).1.clients
          = st.clients.filter (fun c => !(L.contains c.id) || ok c.id)
        ∧ (sendLoop ok ev now L st).2 = (L.filter ok).length := by
  induction L with
  | nil =>
    intro st hw _ _
    exact ⟨by simp [sendLoop], rfl⟩
  | cons i rest ih =>
    intro st hw hnd hmem
    obtain ⟨c, hcl, hci⟩ := hmem i (List.mem_cons_self i rest)
    obtain ⟨d, hd⟩ : ∃ d, getClient st i = some d :=
      Option.isSome_iff_exists.mp
        (List.find?_isSome.mpr ⟨c, hcl, by simpa using hci⟩)
    have hndr : rest.Nodup := (List.nodup_cons.mp hnd).2
    have hir : i ∉ rest := (List.nodup_cons.mp hnd).1
    cases hok : ok i with
    | true =>
      have hsend : sendToClient ok i ev now st =
          ({ st with
              totalEventsSent := st.totalEventsSent + 1,
              lastEventTime := some now }, true) := by
        simp [sendToClient, hd, hok]
      have hrec := ih { st with
          totalEventsSent := st.totalEventsSent + 1,
          lastEventTime := some now } hw hndr
        (fun j hj => hmem j (List.mem_cons_of_mem i hj))
      refine ⟨?_, ?_⟩
      · show (sendLoop ok ev now rest _).1.clients = _
        rw [hsend]
        rw [hrec.1]
        refine List.filter_congr fun x _ => ?_
        by_cases hxi : x.id = i
        · simp [List.contains_cons, hxi, hok]
        · simp [List.contains_cons, hxi]
      · show (sendLoop ok ev now rest _).2 + _ = _
        rw [hsend]
        simp [List.filter_cons, hok, hrec.2]
    | false =>
      have hsend : sendToClient ok i ev now st =
          ((disconnectClient i st).1, false) := by
        simp [sendToClient, hd, hok]
      have hcl1 : ((disconnectClient i st).1).clients
          = st.clients.filter (fun c => !(c.id == i)) :=
        disconnect_clients_eq i st hw
      have hw1 : (((disconnectClient i st).1).clients.map (·.id)).Nodup := by
        rw [hcl1]; exact ids_nodup_filter st.clients _ hw
      have hmem1 : ∀ j ∈ rest, ∃ c ∈ ((disconnectClient i st).1).clients,
          c.id = j := by
        intro j hj
        obtain ⟨cj, hcjl, hcji⟩ := hmem j (List.mem_cons_of_mem i hj)
        have hji : j ≠ i := fun he => hir (he ▸ hj)
        refine ⟨cj, ?_, hcji⟩
        rw [hcl1]
        exact List.mem_filter.mpr ⟨hcjl, by simp [hcji, hji]⟩
      have hrec := ih ((disconnectClient i st).1) hw1 hndr hmem1
      refine ⟨?_, ?_⟩
      · show (sendLoop ok ev now rest _).1.clients = _
        rw [hsend]
        rw [hrec.1, hcl1, List.filter_filter]
        refine List.filter_congr fun x _ => ?_
        by_cases hxi : x.id = i
        · simp [List.contains_cons, hxi, hok]
        · simp [List.contains_cons, hxi]
      · show (sendLoop ok ev now rest _).2 + _ = _
        rw [hsend]
        simp [List.filter_cons, hok, hrec.2]

theorem setLastPing_map_id (cs : List SSEClient) (i : String) (now : Nat) :
    (setLastPing cs i now).map (·.id) = cs.map (·.id) := by
  unfold setLastPing
  rw [List.map_map]
  refine List.map_congr_left fun c _ => ?_
  by_cases h : c.id = i <;> simp [h]

theorem heartbeatLoop_spec (ok : String → Bool) (now : Nat)
    (L : List String) :
    ∀ st : ManagerState, (st.clients.map (·.id)).Nodup → L.Nodup →
      (∀ i ∈ L, ∃ c ∈ st.clients, c.id = i) →
      (heartbeatLoop ok now L st).clients
        = (st.clients.filter (fun c => !(L.contains c.id) || ok c.id)).map
            (fun c => if L.contains c.id then { c with lastPing := now }
              else c) := by
  induction L with
  | nil =>
    intro st hw _ _
    simp [heartbeatLoop]
  | cons i rest ih =>
    intro st hw hnd hmem
    obtain ⟨c, hcl, hci⟩ := hmem i (List.mem_cons_self i rest)
    obtain ⟨d, hd⟩ : ∃ d, getClient st i = some d :=
      Option.isSome_iff_exists.mp
        (List.find?_isSome.mpr ⟨c, hcl, by simpa using hci⟩)
    have hndr : rest.Nodup := (List.nodup_cons.mp hnd).2
    have hir : i ∉ rest := (List.nodup_cons.mp hnd).1
    cases hok : ok i with
    | true =>
      have hstep : heartbeatLoop ok now (i :: rest) st
          = heartbeatLoop ok now rest
              { clients := setLastPing st.clients i now,
                closedSinks := st.closedSinks,
                totalEventsSent := st.totalEventsSent + 1,
                lastEventTime := some now } := by
        simp [heartbeatLoop, sendToClient, hd, hok]
      have hw2 : ((setLastPing st.clients i now).map (·.id)).Nodup := by
        rw [setLastPing_map_id]; exact hw
      have hmem2 : ∀ j ∈ rest,
          ∃ c ∈ setLastPing st.clients i now, c.id = j := by
        intro j hj
        obtain ⟨cj, hcjl, hcji⟩ := hmem j (List.mem_cons_of_mem i hj)
        refine ⟨if cj.id == i then { cj with lastPing := now } else cj,
          List.mem_map_of_mem _ hcjl, ?_⟩
        by_cases h : cj.id = i
        · rw [if_pos (by simpa using h)]
          exact hcji
        · rw [if_neg (by simpa using h)]
          exact hcji
      have hrec := ih { clients := setLastPing st.clients i now,
                        closedSinks := st.closedSinks,
                        totalEventsSent := st.totalEventsSent + 1,
                        lastEventTime := some now } hw2 hndr hmem2
      rw [hstep, hrec]
      show ((setLastPing st.clients i now).filter _).map _ = _
      unfold setLastPing
      rw [List.filter_map]
      have hfeq : st.clients.filter
            ((fun c => !(rest.contains c.id) || ok c.id) ∘
              (fun c => if c.id == i then { c with lastPing := now } else c))
          = st.clients.filter
              (fun c => !((i :: rest).contains c.id) || ok c.id) := by
        refine List.filter_congr fun x _ => ?_
        by_cases hxi : x.id = i
        · simp [Function.comp, hxi, List.contains_cons, hok]
        · simp [Function.comp, hxi, List.contains_cons]
      rw [hfeq, List.map_map]
      refine List.map_congr_left fun x hx => ?_
      by_cases hxi : x.id = i
      · simp [Function.comp, hxi, List.contains_cons]
      · simp [Function.comp, hxi, List.contains_cons]
    | false =>
      have hstep : heartbeatLoop ok now (i :: rest) st
          = heartbeatLoop ok now rest ((disconnectClient i st).1) := by
        simp [heartbeatLoop, sendToClient, hd, hok]
      have hcl1 : ((disconnectClient i st).1).clients
          = st.clients.filter (fun c => !(c.id == i)) :=
        disconnect_clients_eq i st hw
      have hw1 : (((disconnectClient i st).1).clients.map (·.id)).Nodup := by
        rw [hcl1]; exact ids_nodup_filter st.clients _ hw
      have hmem1 : ∀ j ∈ rest, ∃ c ∈ ((disconnectClient i st).1).clients,
          c.id = j := by
        intro j hj
        obtain ⟨cj, hcjl, hcji⟩ := hmem j (List.mem_cons_of_mem i hj)
        have hji : j ≠ i := fun he => hir (he ▸ hj)
        refine ⟨cj, ?_, hcji⟩
        rw [hcl1]
        exact List.mem_filter.mpr ⟨hcjl, by simp [hcji, hji]⟩
      rw [hstep, ih ((disconnectClient i st).1) hw1 hndr hmem1, hcl1,
        List.filter_filter]
      have hfeq : st.clients.filter
            (fun a => (!(rest.contains a.id) || ok a.id) && !(a.id == i))
          = st.clients.filter
              (fun c => !((i :: rest).contains c.id) || ok c.id) := by
        refine List.filter_congr fun x _ => ?_
        by_cases hxi : x.id = i
        · simp [hxi, List.contains_cons, hok]
        · simp [hxi, List.contains_cons]
      rw [hfeq]
      refine List.map_congr_left fun x hx => ?_
      have hxi : x.id ≠ i := by
        rcases List.mem_filter.mp hx with ⟨-, hp⟩
        intro he
        simp [List.contains_cons, he, hok] at hp
      simp [List.contains_cons, hxi]

/-- `sendHeartbeat` pings every registered client: the ones whose ping
delivery succeeds stay, stamped `lastPing = now`; the ones whose ping
fails are torn down by the failed-send path. -/
theorem sendHeartbeat_clients (ok : String → Bool) (now : Nat)
    (st : ManagerState) (hw : (st.clients.map (·.id)).Nodup) :
    (sendHeartbeat ok now st).clients
      = (st.clients.filter (fun c => ok c.id)).map
          (fun c => { c with lastPing := now }) := by
  unfold sendHeartbeat
  have hmem : ∀ i ∈ st.clients.map (·.id), ∃ c ∈ st.clients, c.id = i := by
    intro i hi
    rcases List.mem_map.mp hi with ⟨c, hc, hci⟩
    exact ⟨c, hc, hci⟩
  rw [heartbeatLoop_spec ok now _ st hw hw hmem]
  have hfeq : st.clients.filter
        (fun c => !((st.clients.map (·.id)).contains c.id) || ok c.id)
      = st.clients.filter (fun c => ok c.id) := by
    refine List.filter_congr fun x hx => ?_
    rw [contains_keys_all st.clients x hx]
    simp
  rw [hfeq]
  refine List.map_congr_left fun x hx => ?_
  rw [contains_keys_all st.clients x (List.mem_filter.mp hx).1]
  simp

theorem disconnectFold_clients (I : List String) :
    ∀ st : ManagerState, (st.clients.map (·.id)).Nodup →
      (I.foldl (fun s i => (disconnectClient i s).1) st).clients
        = st.clients.filter (fun c => !(I.contains c.id)) := by
  induction I with
  | nil =>
    intro st hw
    simp
  | cons i I2 ih =>
    intro st hw
    simp only [List.foldl_cons]
    have h1 := disconnect_clients_eq i st hw
    have hw1 : (((disconnectClient i st).1).clients.map (·.id)).Nodup := by
      rw [h1]; exact ids_nodup_filter st.clients _ hw
    rw [ih _ hw1, h1, List.filter_filter]
    refine List.filter_congr fun x _ => ?_
    by_cases hxi : x.id = i <;> simp [hxi, List.contains_cons]

/-- `cleanupStaleClients` keeps exactly the clients pinged within the
timeout window (strictly: removed iff `now - lastPing > clientTimeout`). -/
theorem cleanup_clients_eq (now clientTimeout : Nat) (st : ManagerState)
    (hw : (st.clients.map (·.id)).Nodup) :
    (cleanupStaleClients now clientTimeout st).clients
      = st.clients.filter
          (fun c => decide (now - c.lastPing ≤ clientTimeout)) := by
  unfold cleanupStaleClients
  rw [disconnectFold_clients _ st hw]
  refine List.filter_congr fun x hx => ?_
  rw [contains_keys_filter st.clients _ x hw hx, ← decide_not]
  exact decide_eq_decide.mpr Nat.not_lt

/-! ### The split/join round trip for multi-line payloads -/

theorem splitLines_ne_nil : ∀ cs : List Char, splitLines cs ≠ []
  | [] => by simp [splitLines]
  | c :: cs => by
    simp only [splitLines]
    cases h : splitLines cs with
    | nil => simp
    | cons l ls => by_cases hc : c = '\n' <;> simp [hc]

theorem intercalate_go_data :
    ∀ (as : List String) (acc : String),
      (String.intercalate.go acc "\n" as).data = acc.data ++ tailGlue as := by
  intro as
  induction as with
  | nil =>
    intro acc
    simp [String.intercalate.go, tailGlue]
  | cons a as ih =>
    intro acc
    simp [String.intercalate.go, tailGlue, ih, String.data_append]

theorem intercalate_data_glue (ls : List String) :
    (String.intercalate "\n" ls).data = glue ls := by
  cases ls with
  | nil => rfl
  | cons a as =>
    simp [String.intercalate, glue, intercalate_go_data]

theorem glue_splitLines : ∀ cs : List Char,
    glue ((splitLines cs).map String.mk) = cs := by
  intro cs
  induction cs with
  | nil => rfl
  | cons c cs ih =>
    simp only [splitLines]
    cases h : splitLines cs with
    | nil => exact absurd h (splitLines_ne_nil cs)
    | cons l ls =>
      rw [h] at ih
      by_cases hc : c = '\n'
      · subst hc
        simpa [glue, tailGlue] using ih
      · simpa [hc, glue, tailGlue] using ih

/-- Joining the fragments of `split("\n")` back with `"\n"` recovers
the original string. -/
theorem intercalate_splitOnNl (s : String) :
    String.intercalate "\n" (splitOnNl s) = s := by
  refine String.ext ?_
  rw [splitOnNl, intercalate_data_glue, glue_splitLines]

/-! ### Claim theorems -/

/-- C4 counterexample: the claim's characterization of filter matching
("every criterion present in the filter holds") fails on the code at a
concrete input: the filter `{ userId: "" }` has its `userId` criterion
present, the connection's userId `"u1"` differs, yet
`getClientsByFilter` matches the connection, because an empty string
is falsy and the guard `filter.userId && …` skips the criterion. -/
theorem matchesFilter_presence_counterexample :
    matchesFilter { userId := some "" }
        { id := "c1", userId := some "u1", lastPing := 0, connectedAt := 0 }
      = true
    ∧ claimMatches { userId := some "" }
        { id := "c1", userId := some "u1", lastPing := 0, connectedAt := 0 }
      = false := by decide

/-- C4 (amended): filter matching is the conjunction of the listed
criteria, where a `userId`/`sessionId` criterion counts as present
only when the string is non-empty (JS truthiness); metadata keys not
listed in the filter are never consulted, and the empty filter matches
every connection. -/
theorem matchesFilter_conjunction_amended (f : ClientFilter)
    (c : SSEClient) :
    matchesFilter f c = amendedMatches f c ∧ matchesFilter {} c = true := by
  refine ⟨?_, matchesFilter_empty c⟩
  unfold matchesFilter amendedMatches
  cases hx1 : f.clientIds.isSome <;>
    cases hx2 : (f.clientIds.getD []).contains c.id <;>
    cases hx3 : truthyStr f.userId <;>
    cases hx4 : c.userId == f.userId <;>
    cases hx5 : truthyStr f.sessionId <;>
    cases hx6 : c.sessionId == f.sessionId <;>
    cases hx7 : f.metadata.isSome <;>
    cases hx8 : ((f.metadata.getD []).all
      (fun kv => c.metadata.bind (List.lookup kv.1) == some kv.2)) <;>
    simp [hx1, hx2, hx3, hx4, hx5, hx6, hx7, hx8]

/-- C9: `sendToUser("", e)` behaves exactly as `broadcast(e)`: the
filter `{ userId: "" }` skips its userId criterion (empty string is
falsy), so every registered connection matches, whatever its userId. -/
theorem sendToUser_emptyUserId_broadcast (ok : String → Bool)
    (ev : SSEEvent) (now : Nat) (st : ManagerState) :
    sendToUser ok "" ev now st = broadcast ok ev now st := by
  unfold sendToUser broadcast sendToClients
  have h : getClientsByFilter { userId := some "" } st.clients
      = getClientsByFilter {} st.clients := by
    unfold getClientsByFilter
    refine List.filter_congr fun x _ => ?_
    simp [matchesFilter, truthyStr]
  rw [h]

/-- C10: a filter whose `clientIds` list is present but empty matches
no connection (an empty array is truthy, and membership in it always
fails), so `sendToClients({clientIds: []}, e)` delivers nothing,
returns 0 and leaves the state unchanged — in contrast to the empty
filter, which matches every connection. -/
theorem sendToClients_emptyClientIds (ok : String → Bool) (ev : SSEEvent)
    (now : Nat) (st : ManagerState) :
    sendToClients ok { clientIds := some [] } ev now st = (st, 0)
    ∧ getClientsByFilter { clientIds := some [] } st.clients = []
    ∧ getClientsByFilter {} st.clients = st.clients := by
  have h : getClientsByFilter { clientIds := some [] } st.clients = [] := by
    unfold getClientsByFilter
    refine List.filter_eq_nil_iff.mpr fun x _ => ?_
    simp [matchesFilter]
  refine ⟨?_, h, getClientsByFilter_empty st.clients⟩
  unfold sendToClients
  rw [h]
  rfl

/-- C6 counterexample: the claim says an `id:` header line is emitted
whenever the event's id is present, but the encoder guards each header
line with JS truthiness, so the present-but-empty id `""` (and
likewise a `retry` of 0) produces no header line: at this concrete
event the code's output differs from the claim's. -/
theorem formatSSEMessage_presence_counterexample :
    formatSSEMessage { event := some "e", data := .str "x", id := some "" }
      ≠ claimFormat { event := some "e", data := .str "x", id := some "" }
    ∧ formatSSEMessage { event := some "e", data := .str "x", id := some "" }
      = "event: e\ndata: x\n\n" := by
  refine ⟨?_, rfl⟩
  decide

/-- C6 (amended): the encoder emits, in this order, an `id:` line when
the id is present and non-empty, an `event:` line when the name is
present and non-empty, a `retry:` line when the retry is present and
non-zero, then the `data:` lines, then the terminating blank line. -/
theorem formatSSEMessage_header_order_amended (ev : SSEEvent) :
    formatSSEMessage ev
      = amendedHeader ev
        ++ String.join ((splitOnNl (serializeData ev.data)).map
            (fun line => "data: " ++ line ++ "\n"))
        ++ "\n" := by
  unfold formatSSEMessage amendedHeader
  by_cases h1 : truthyStr ev.id = true <;>
    by_cases h2 : truthyStr ev.event = true <;>
    by_cases h3 : truthyNat ev.retry = true <;>
    simp [h1, h2, h3, String.append_assoc]
  all_goals refine String.ext ?_
  all_goals simp [String.data_append]

/-- C7: for an event whose data is a string, the encoder emits one
`data:` line per newline-separated fragment, in order, after some
header block; joining the fragments back with a newline reconstructs
the original string exactly. -/
theorem multiline_roundtrip (ev : SSEEvent) (s : String)
    (h : ev.data = .str s) :
    (∃ hdr, formatSSEMessage ev
        = hdr
          ++ String.join ((splitOnNl s).map
              (fun line => "data: " ++ line ++ "\n"))
          ++ "\n")
    ∧ String.intercalate "\n" (splitOnNl s) = s := by
  refine ⟨⟨(if truthyStr ev.id then "id: " ++ ev.id.getD "" ++ "\n" else "")
      ++ (if truthyStr ev.event then "event: " ++ ev.event.getD "" ++ "\n"
          else "")
      ++ (if truthyNat ev.retry then
            "retry: " ++ toString (ev.retry.getD 0) ++ "\n"
          else ""), ?_⟩, intercalate_splitOnNl s⟩
  unfold formatSSEMessage
  rw [h]
  by_cases h1 : truthyStr ev.id = true <;>
    by_cases h2 : truthyStr ev.event = true <;>
    by_cases h3 : truthyNat ev.retry = true <;>
    simp [h1, h2, h3, serializeData, String.append_assoc]
  all_goals refine String.ext ?_
  all_goals simp [String.data_append]

/-- C7 witness: the round trip at the spec's own example
`"line1\nline2"`, which encodes to two `data:` lines. -/
theorem multiline_roundtrip_witness :
    splitOnNl "line1\nline2" = ["line1", "line2"]
    ∧ String.intercalate "\n" (splitOnNl "line1\nline2")
        = "line1\nline2" :=
  ⟨by decide,
    (multiline_roundtrip { data := .str "line1\nline2" } "line1\nline2"
      rfl).2⟩

/-- C1: a `createConnection` call made while the registry holds fewer
than `maxClients` connections succeeds and grows the registry by
exactly one entry (given a fresh generated id, which `generateClientId`
guarantees); a call made while the registry holds `maxClients` or more
throws the capacity error before any mutation, leaving the registry
unchanged. -/
theorem createConnection_capacity (cfg : ResolvedConfig) (clientId : String)
    (now : Nat) (options : ConnectOptions) (st : ManagerState)
    (hfresh : ∀ c ∈ st.clients, c.id ≠ clientId) :
    (st.clients.length < cfg.maxClients →
      ∃ st2, createConnection cfg clientId now options st = .ok st2
        ∧ st2.clients.length = st.clients.length + 1)
    ∧ (st.clients.length ≥ cfg.maxClients →
        createConnection cfg clientId now options st
            = .error "Maximum number of SSE clients reached"
          ∧ createConnectionState cfg clientId now options st = st) := by
  constructor
  · intro hlt
    have hnot : ¬ st.clients.length ≥ cfg.maxClients := by omega
    have hany : st.clients.any (fun c => c.id == clientId) = false := by
      rw [List.any_eq_false]
      intro c hc
      simpa using hfresh c hc
    have hfind : st.clients.find? (fun c => c.id == clientId) = none := by
      rw [List.find?_eq_none]
      intro c hc
      simpa using hfresh c hc
    have hget : getClient
        { st with clients := st.clients
            ++ [{ id := clientId, userId := options.userId,
                  sessionId := options.sessionId, lastPing := now,
                  connectedAt := now, metadata := options.metadata }] }
        clientId
        = some { id := clientId, userId := options.userId,
                 sessionId := options.sessionId, lastPing := now,
                 connectedAt := now, metadata := options.metadata } := by
      show List.find? _ (_ ++ _) = _
      rw [List.find?_append, hfind]
      simp
    refine ⟨{ st with
        clients := st.clients
          ++ [{ id := clientId, userId := options.userId,
                sessionId := options.sessionId, lastPing := now,
                connectedAt := now, metadata := options.metadata }],
        totalEventsSent := st.totalEventsSent + 1,
        lastEventTime := some now }, ?_, ?_⟩
    · unfold createConnection
      rw [if_neg hnot]
      simp only [setClient, hany, Bool.false_eq_true, if_false,
        sendToClient, hget, if_pos rfl]
      simp
    · simp
  · intro hge
    refine ⟨?_, ?_⟩
    · unfold createConnection
      rw [if_pos hge]
    · unfold createConnectionState createConnection
      rw [if_pos hge]

/-- C1 witness: with `maxClients = 2`, connecting on a one-client
registry succeeds and yields two clients; connecting on a two-client
registry fails with the capacity error and changes nothing. -/
theorem createConnection_capacity_witness :
    (∃ st2, createConnection
        { pingInterval := 30000, clientTimeout := 60000, maxClients := 2,
          enableLogging := true } "c2" 7 {}
        { clients := [{ id := "c1", lastPing := 0, connectedAt := 0 }] }
        = .ok st2
      ∧ st2.clients.length
          = ({ clients := [{ id := "c1", lastPing := 0, connectedAt := 0 }] }
              : ManagerState).clients.length + 1)
    ∧ createConnection
        { pingInterval := 30000, clientTimeout := 60000, maxClients := 1,
          enableLogging := true } "c2" 7 {}
        { clients := [{ id := "c1", lastPing := 0, connectedAt := 0 }] }
        = .error "Maximum number of SSE clients reached"
      ∧ createConnectionState
          { pingInterval := 30000, clientTimeout := 60000, maxClients := 1,
            enableLogging := true } "c2" 7 {}
          { clients := [{ id := "c1", lastPing := 0, connectedAt := 0 }] }
        = { clients := [{ id := "c1", lastPing := 0, connectedAt := 0 }] } :=
  ⟨(createConnection_capacity _ "c2" 7 {} _ (by decide)).1 (by decide),
    (createConnection_capacity _ "c2" 7 {} _ (by decide)).2 (by decide)⟩

/-- C2: `sendToClient` on an unregistered id returns false and leaves
the state untouched; on a registered id whose sink write fails, the
connection is removed from the registry, its sink close is recorded,
and false is returned; on a successful write the event counter is
incremented, the last-event-time stat is set, nothing else changes,
and true is returned. -/
theorem sendToClient_cases (ok : String → Bool) (clientId : String)
    (ev : SSEEvent) (now : Nat) (st : ManagerState)
    (hw : (st.clients.map (·.id)).Nodup) :
    (getClient st clientId = none →
      sendToClient ok clientId ev now st = (st, false))
    ∧ (∀ c, getClient st clientId = some c → ok clientId = false →
        (sendToClient ok clientId ev now st).2 = false
        ∧ ((sendToClient ok clientId ev now st).1).clients
            = st.clients.filter (fun c2 => !(c2.id == clientId))
        ∧ clientId ∈ ((sendToClient ok clientId ev now st).1).closedSinks)
    ∧ (∀ c, getClient st clientId = some c → ok clientId = true →
        sendToClient ok clientId ev now st
          = ({ st with
                totalEventsSent := st.totalEventsSent + 1,
                lastEventTime := some now }, true)) := by
  refine ⟨?_, ?_, ?_⟩
  · intro h
    simp [sendToClient, h]
  · intro c hc hok
    have h1 : sendToClient ok clientId ev now st
        = ((disconnectClient clientId st).1, false) := by
      simp [sendToClient, hc, hok]
    have h2 : (disconnectClient clientId st).1
        = { st with
              clients := st.clients.eraseP (fun c2 => c2.id == clientId),
              closedSinks := st.closedSinks ++ [clientId] } := by
      simp [disconnectClient, hc]
    rw [h1, h2]
    refine ⟨rfl, ?_, ?_⟩
    · exact eraseP_keyed st.clients clientId hw
    · simp
  · intro c hc hok
    simp [sendToClient, hc, hok]

/-- C2 witness: the three cases at concrete states — unknown id,
failing sink, succeeding sink. -/
theorem sendToClient_cases_witness :
    sendToClient (fun _ => true) "ghost" { data := .str "x" } 9 { clients := [{ id := "a", lastPing := 0, connectedAt := 0 }] } = ({ clients := [{ id := "a", lastPing := 0, connectedAt := 0 }] }, false)
    ∧ ((sendToClient (fun _ => false) "a" { data := .str "x" } 9 { clients := [{ id := "a", lastPing := 0, connectedAt := 0 }] }).2 = false
      ∧ ((sendToClient (fun _ => false) "a" { data := .str "x" } 9 { clients := [{ id := "a", lastPing := 0, connectedAt := 0 }] }).1).clients = ({ clients := [{ id := "a", lastPing := 0, connectedAt := 0 }] } : ManagerState).clients.filter (fun c2 => !(c2.id == "a"))
      ∧ "a" ∈ ((sendToClient (fun _ => false) "a" { data := .str "x" } 9 { clients := [{ id := "a", lastPing := 0, connectedAt := 0 }] }).1).closedSinks)
    ∧ sendToClient (fun _ => true) "a" { data := .str "x" } 9 { clients := [{ id := "a", lastPing := 0, connectedAt := 0 }] } = ({ clients := [{ id := "a", lastPing := 0, connectedAt := 0 }], totalEventsSent := 1, lastEventTime := some 9 }, true) :=
  ⟨(sendToClient_cases (fun _ => true) "ghost" { data := .str "x" } 9 _
      (by decide)).1 (by decide),
    (sendToClient_cases (fun _ => false) "a" { data := .str "x" } 9 _
      (by decide)).2.1 { id := "a", lastPing := 0, connectedAt := 0 }
      (by decide) (by decide),
    (sendToClient_cases (fun _ => true) "a" { data := .str "x" } 9 _
      (by decide)).2.2 { id := "a", lastPing := 0, connectedAt := 0 }
      (by decide) (by decide)⟩

/-- C8: `disconnectClient` is idempotent: on a registered id the first
call returns true, records the sink close, and removes exactly that
entry from the registry; the second call on the resulting state
returns false and changes nothing (in particular the registry size is
unchanged). -/
theorem disconnectClient_idempotent (st : ManagerState) (clientId : String)
    (hw : (st.clients.map (·.id)).Nodup)
    (hs : (getClient st clientId).isSome = true) :
    (disconnectClient clientId st).2 = true
    ∧ clientId ∈ ((disconnectClient clientId st).1).closedSinks
    ∧ ((disconnectClient clientId st).1).clients
        = st.clients.filter (fun c => !(c.id == clientId))
    ∧ disconnectClient clientId ((disconnectClient clientId st).1)
        = ((disconnectClient clientId st).1, false) := by
  obtain ⟨c, hc⟩ := Option.isSome_iff_exists.mp hs
  have h2 : (disconnectClient clientId st)
      = ({ st with
            clients := st.clients.eraseP (fun c2 => c2.id == clientId),
            closedSinks := st.closedSinks ++ [clientId] }, true) := by
    simp [disconnectClient, hc]
  have hcl : ((disconnectClient clientId st).1).clients
      = st.clients.filter (fun c2 => !(c2.id == clientId)) := by
    rw [h2]
    exact eraseP_keyed st.clients clientId hw
  have hnone : getClient ((disconnectClient clientId st).1) clientId
      = none := by
    unfold getClient
    rw [hcl, List.find?_eq_none]
    intro x hx
    rcases List.mem_filter.mp hx with ⟨-, hxp⟩
    simpa using hxp
  exact ⟨by rw [h2], by rw [h2]; simp, hcl,
    disconnectClient_absent clientId _ hnone⟩

/-- C8 witness: disconnecting a registered client twice at a concrete
state. -/
theorem disconnectClient_idempotent_witness :
    (disconnectClient "a" { clients := [{ id := "a", lastPing := 0, connectedAt := 0 }, { id := "b", lastPing := 0, connectedAt := 0 }] }).2 = true
    ∧ "a" ∈ ((disconnectClient "a" { clients := [{ id := "a", lastPing := 0, connectedAt := 0 }, { id := "b", lastPing := 0, connectedAt := 0 }] }).1).closedSinks
    ∧ ((disconnectClient "a" { clients := [{ id := "a", lastPing := 0, connectedAt := 0 }, { id := "b", lastPing := 0, connectedAt := 0 }] }).1).clients = ({ clients := [{ id := "a", lastPing := 0, connectedAt := 0 }, { id := "b", lastPing := 0, connectedAt := 0 }] } : ManagerState).clients.filter (fun c => !(c.id == "a"))
    ∧ disconnectClient "a" ((disconnectClient "a" { clients := [{ id := "a", lastPing := 0, connectedAt := 0 }, { id := "b", lastPing := 0, connectedAt := 0 }] }).1) = ((disconnectClient "a" { clients := [{ id := "a", lastPing := 0, connectedAt := 0 }, { id := "b", lastPing := 0, connectedAt := 0 }] }).1, false) :=
  disconnectClient_idempotent { clients := [{ id := "a", lastPing := 0, connectedAt := 0 }, { id := "b", lastPing := 0, connectedAt := 0 }] } "a" (by decide) (by decide)

/-- C3: `broadcast(e)` is exactly `sendToClients({}, e)`; on a
registry of N connections it returns N − k where k is the number of
connections whose sink rejects the write, and afterwards exactly the
accepting connections remain — every connection whose sink failed is
absent from the registry. -/
theorem broadcast_counts (ok : String → Bool) (ev : SSEEvent) (now : Nat)
    (st : ManagerState) (hw : (st.clients.map (·.id)).Nodup) :
    broadcast ok ev now st = sendToClients ok {} ev now st
    ∧ (broadcast ok ev now st).2
        = st.clients.length
          - (st.clients.filter (fun c => !(ok c.id))).length
    ∧ ((broadcast ok ev now st).1).clients
        = st.clients.filter (fun c => ok c.id)
    ∧ ∀ c ∈ st.clients, ok c.id = false →
        ∀ c2 ∈ ((broadcast ok ev now st).1).clients, c2.id ≠ c.id := by
  have hmem : ∀ i ∈ st.clients.map (·.id), ∃ c ∈ st.clients, c.id = i := by
    intro i hi
    rcases List.mem_map.mp hi with ⟨c, hc, hci⟩
    exact ⟨c, hc, hci⟩
  have hL := sendLoop_spec ok ev now (st.clients.map (·.id)) st hw hw hmem
  have hbe : broadcast ok ev now st
      = sendLoop ok ev now (st.clients.map (·.id)) st := by
    unfold broadcast sendToClients
    rw [getClientsByFilter_empty]
  have hclients : ((broadcast ok ev now st).1).clients
      = st.clients.filter (fun c => ok c.id) := by
    rw [hbe, hL.1]
    refine List.filter_congr fun x hx => ?_
    rw [contains_keys_all st.clients x hx]
    simp
  have hcount : (broadcast ok ev now st).2
      = (st.clients.filter (fun c => ok c.id)).length := by
    rw [hbe, hL.2, List.filter_map, List.length_map]
    exact congrArg List.length (List.filter_congr fun x _ => rfl)
  refine ⟨rfl, ?_, hclients, ?_⟩
  · rw [hcount]
    have := filter_length_add_not st.clients (fun c => ok c.id)
    omega
  · intro c hc hok c2 hc2 he
    rw [hclients] at hc2
    rcases List.mem_filter.mp hc2 with ⟨-, hp⟩
    rw [he, hok] at hp
    exact absurd hp (by simp)

/-- C3 witness: three clients, one failing sink — the broadcast
returns 3 − 1 and the failing client is gone. -/
theorem broadcast_counts_witness :
    (broadcast (fun i => i != "b") { data := .str "x" } 5 { clients := [{ id := "a", lastPing := 0, connectedAt := 0 }, { id := "b", lastPing := 0, connectedAt := 0 }, { id := "c", lastPing := 0, connectedAt := 0 }] }).2 = ({ clients := [{ id := "a", lastPing := 0, connectedAt := 0 }, { id := "b", lastPing := 0, connectedAt := 0 }, { id := "c", lastPing := 0, connectedAt := 0 }] } : ManagerState).clients.length - (({ clients := [{ id := "a", lastPing := 0, connectedAt := 0 }, { id := "b", lastPing := 0, connectedAt := 0 }, { id := "c", lastPing := 0, connectedAt := 0 }] } : ManagerState).clients.filter (fun c => !((fun i => i != "b") c.id))).length
    ∧ ((broadcast (fun i => i != "b") { data := .str "x" } 5 { clients := [{ id := "a", lastPing := 0, connectedAt := 0 }, { id := "b", lastPing := 0, connectedAt := 0 }, { id := "c", lastPing := 0, connectedAt := 0 }] }).1).clients = ({ clients := [{ id := "a", lastPing := 0, connectedAt := 0 }, { id := "b", lastPing := 0, connectedAt := 0 }, { id := "c", lastPing := 0, connectedAt := 0 }] } : ManagerState).clients.filter (fun c => (fun i => i != "b") c.id) :=
  ⟨(broadcast_counts (fun i => i != "b") { data := .str "x" } 5 { clients := [{ id := "a", lastPing := 0, connectedAt := 0 }, { id := "b", lastPing := 0, connectedAt := 0 }, { id := "c", lastPing := 0, connectedAt := 0 }] } (by decide)).2.1,
    (broadcast_counts (fun i => i != "b") { data := .str "x" } 5 { clients := [{ id := "a", lastPing := 0, connectedAt := 0 }, { id := "b", lastPing := 0, connectedAt := 0 }, { id := "c", lastPing := 0, connectedAt := 0 }] } (by decide)).2.2.1⟩

/-- C5: one background-timer tick is the heartbeat followed by the
stale sweep; the heartbeat pings every registered connection, keeps
exactly the connections whose ping delivery succeeded and stamps their
`lastPing = now` (a failed ping tears the connection down on the
spot); the sweep then removes exactly the connections whose `lastPing`
is older than `clientTimeout`; consequently every connection with a
successful heartbeat this tick survives the whole tick. -/
theorem pingTick_heartbeat_then_sweep (ok : String → Bool) (now : Nat)
    (cfg : ResolvedConfig) (st : ManagerState)
    (hw : (st.clients.map (·.id)).Nodup) :
    pingTick ok now cfg st
        = cleanupStaleClients now cfg.clientTimeout (sendHeartbeat ok now st)
    ∧ (sendHeartbeat ok now st).clients
        = (st.clients.filter (fun c => ok c.id)).map
            (fun c => { c with lastPing := now })
    ∧ (∀ st2 : ManagerState, (st2.clients.map (·.id)).Nodup →
        (cleanupStaleClients now cfg.clientTimeout st2).clients
          = st2.clients.filter
              (fun c => decide (now - c.lastPing ≤ cfg.clientTimeout)))
    ∧ (pingTick ok now cfg st).clients
        = (st.clients.filter (fun c => ok c.id)).map
            (fun c => { c with lastPing := now }) := by
  have hhb := sendHeartbeat_clients ok now st hw
  have hids : ((st.clients.filter (fun c => ok c.id)).map
        (fun c => ({ c with lastPing := now } : SSEClient))).map (·.id)
      = (st.clients.filter (fun c => ok c.id)).map (·.id) := by
    rw [List.map_map]
    exact List.map_congr_left fun c _ => rfl
  have hwhb : ((sendHeartbeat ok now st).clients.map (·.id)).Nodup := by
    rw [hhb, hids]
    exact ids_nodup_filter st.clients _ hw
  refine ⟨rfl, hhb,
    fun st2 hw2 => cleanup_clients_eq now cfg.clientTimeout st2 hw2, ?_⟩
  show (cleanupStaleClients now cfg.clientTimeout
      (sendHeartbeat ok now st)).clients = _
  rw [cleanup_clients_eq _ _ _ hwhb, hhb]
  refine List.filter_eq_self.mpr fun x hx => ?_
  rcases List.mem_map.mp hx with ⟨c, _, hcx⟩
  rw [← hcx]
  simp

/-- C5 witness: a two-client registry where one ping fails — after the
tick exactly the successfully-pinged client remains, freshly
stamped. -/
theorem pingTick_heartbeat_then_sweep_witness :
    (sendHeartbeat (fun i => i != "b") 100 { clients := [{ id := "a", lastPing := 0, connectedAt := 0 }, { id := "b", lastPing := 0, connectedAt := 0 }] }).clients = (({ clients := [{ id := "a", lastPing := 0, connectedAt := 0 }, { id := "b", lastPing := 0, connectedAt := 0 }] } : ManagerState).clients.filter (fun c => (fun i => i != "b") c.id)).map (fun c => { c with lastPing := 100 })
    ∧ (pingTick (fun i => i != "b") 100 { pingInterval := 30000, clientTimeout := 60000, maxClients := 1000, enableLogging := true } { clients := [{ id := "a", lastPing := 0, connectedAt := 0 }, { id := "b", lastPing := 0, connectedAt := 0 }] }).clients = (({ clients := [{ id := "a", lastPing := 0, connectedAt := 0 }, { id := "b", lastPing := 0, connectedAt := 0 }] } : ManagerState).clients.filter (fun c => (fun i => i != "b") c.id)).map (fun c => { c with lastPing := 100 }) :=
  ⟨(pingTick_heartbeat_then_sweep (fun i => i != "b") 100 { pingInterval := 30000, clientTimeout := 60000, maxClients := 1000, enableLogging := true } { clients := [{ id := "a", lastPing := 0, connectedAt := 0 }, { id := "b", lastPing := 0, connectedAt := 0 }] } (by decide)).2.1,
    (pingTick_heartbeat_then_sweep (fun i => i != "b") 100 { pingInterval := 30000, clientTimeout := 60000, maxClients := 1000, enableLogging := true } { clients := [{ id := "a", lastPing := 0, connectedAt := 0 }, { id := "b", lastPing := 0, connectedAt := 0 }] } (by decide)).2.2.2⟩

end SSE
